import Mathlib

/-!
Verification of the key-value persistence layer of `bevy_pkv` (backends:
filesystem store `fs_store.rs`, embedded transactional store `redb_store.rs`,
browser local-storage store `local_storage_store.rs`).

The stores are shallowly embedded: each backend's persistent state is an
association list from string keys (file paths, table keys, or prefixed
local-storage keys) to stored payloads, and each operation of the
`StoreImpl` trait is a pure function from state to (new state, result),
translated line by line from the Rust source. Serialization is modelled by
explicit encoder/decoder parameters (mirroring the `serde` generics of the
source) together with concrete models of the JSON string encoding used by
`serde_json::to_string` and the MessagePack encoding used by `rmp_serde`.
Only the missing-path flavor of `std::io::Error` is modelled, since the
in-memory filesystem model makes every other I/O operation succeed.
-/

namespace BevyPkv

/-! ## Association-list state model -/

/-- Lookup of the first binding of `key` in an association list.
Models a filesystem directory (path to file contents), a redb table
(key to byte payload), or the browser storage map. -/
def lookupA {β : Type} : List (String × β) → String → Option β
  | [], _ => none
  | (k, v) :: rest, key => if k = key then some v else lookupA rest key

/-- Remove every binding of `key` from an association list. -/
def removeEntry {β : Type} : List (String × β) → String → List (String × β)
  | [], _ => []
  | (k, v) :: rest, key =>
    if k = key then removeEntry rest key else (k, v) :: removeEntry rest key

/-- Overwrite the binding of `key` with `v` (models `fs::write`,
`redb` table `insert`, and `Storage::set_item`, all of which replace any
prior value for the key). -/
def setEntry {β : Type} (l : List (String × β)) (key : String) (v : β) :
    List (String × β) :=
  (key, v) :: removeEntry l key

theorem lookupA_setEntry_self {β : Type} (l : List (String × β)) (k : String) (v : β) :
    lookupA (setEntry l k v) k = some v := by
  simp [setEntry, lookupA]

theorem lookupA_removeEntry_ne {β : Type} (l : List (String × β)) {k k' : String}
    (h : k' ≠ k) : lookupA (removeEntry l k) k' = lookupA l k' := by
  induction l with
  | nil => rfl
  | cons p rest ih =>
    obtain ⟨pk, pv⟩ := p
    by_cases hpk : pk = k
    · subst hpk
      simp [removeEntry, lookupA, ih, Ne.symm h]
    · by_cases hpk' : pk = k'
      · subst hpk'
        simp [removeEntry, lookupA, hpk]
      · simp [removeEntry, lookupA, hpk, hpk', ih]

theorem lookupA_removeEntry_self {β : Type} (l : List (String × β)) (k : String) :
    lookupA (removeEntry l k) k = none := by
  induction l with
  | nil => rfl
  | cons p rest ih =>
    obtain ⟨pk, pv⟩ := p
    by_cases hpk : pk = k
    · simp [removeEntry, hpk, ih]
    · simp [removeEntry, lookupA, hpk, ih]

theorem lookupA_setEntry_ne {β : Type} (l : List (String × β)) {k k' : String}
    (v : β) (h : k' ≠ k) : lookupA (setEntry l k v) k' = lookupA l k' := by
  simp [setEntry, lookupA, Ne.symm h, lookupA_removeEntry_ne l h]

/-! ## Result of a Rust call that may panic

The browser backend's `get` unwraps a `serde_json` result and the
filesystem backend's `get_with` body is the unconditionally panicking
todo macro, so those operations need a result type with an explicit
panic outcome alongside `Ok` and `Err`. -/

/-- Outcome of a Rust function call: a returned `Ok`, a returned `Err`,
or a panic (no value returned at all). -/
inductive RRes (ε : Type) (α : Type) where
  | ok (a : α)
  | err (e : ε)
  | panicked
  deriving DecidableEq

/-! ## Serialization models -/

/-- Hex digit character used by the JSON control-character escapes,
lowercase as emitted by `serde_json`. -/
def hexDigit (n : Nat) : Char :=
  if n < 10 then Char.ofNat (48 + n) else Char.ofNat (87 + n)

/-- JSON escaping of one character as performed by `serde_json` when
serializing a string value: quote and backslash get a two-character
escape, the control characters with short escapes use them, any other
control character becomes a `\u00XX` escape, and all other characters
are emitted verbatim. -/
def jsonEscapeChar (c : Char) : String :=
  if c = '"' then "\\\""
  else if c = '\\' then "\\\\"
  else if c = Char.ofNat 8 then "\\b"
  else if c = Char.ofNat 9 then "\\t"
  else if c = Char.ofNat 10 then "\\n"
  else if c = Char.ofNat 12 then "\\f"
  else if c = Char.ofNat 13 then "\\r"
  else if c.toNat < 32 then
    String.mk ['\\', 'u', '0', '0', hexDigit (c.toNat / 16), hexDigit (c.toNat % 16)]
  else String.mk [c]

/-- Model of `serde_json::to_string` applied to a string value: the
escaped characters surrounded by double quotes. Serializing a string as
JSON never fails, so the model is total. -/
def jsonEncodeString (s : String) : String :=
  "\"" ++ String.join (s.data.map jsonEscapeChar) ++ "\""

/-- UTF-8 bytes of a string, as natural numbers below 256. -/
def strBytes (s : String) : List Nat :=
  s.toUTF8.toList.map (fun b => b.toNat)

/-- MessagePack encoding of a string value (`str` format family):
fixstr for fewer than 32 bytes, then str8 / str16 / str32 headers with
big-endian lengths, followed by the UTF-8 bytes. -/
def msgpackEncodeStr (s : String) : List Nat :=
  let b := strBytes s
  let n := b.length
  if n < 32 then (160 + n) :: b
  else if n < 256 then 217 :: n :: b
  else if n < 65536 then 218 :: (n / 256) :: (n % 256) :: b
  else 219 :: (n / 16777216) :: (n / 65536 % 256) :: (n / 256 % 256) :: (n % 256) :: b

/-- MessagePack array header (fixarray / array16 / array32). -/
def msgpackArrayHeader (n : Nat) : List Nat :=
  if n < 16 then [144 + n]
  else if n < 65536 then [220, n / 256, n % 256]
  else [221, n / 16777216, n / 65536 % 256, n / 256 % 256, n % 256]

/-- MessagePack map header (fixmap / map16 / map32). -/
def msgpackMapHeader (n : Nat) : List Nat :=
  if n < 16 then [128 + n]
  else if n < 65536 then [222, n / 256, n % 256]
  else [223, n / 16777216, n / 65536 % 256, n / 256 % 256, n % 256]

/-- Serde data-model values relevant to this development: plain strings
and structs whose fields hold strings. Structs are the one shape on
which the `with_struct_map` serializer configuration of `rmp_serde`
changes the output, which is what distinguishes `ReDbStore::set` from
`ReDbStore::set_string`. -/
inductive MsgValue where
  | str (s : String)
  | strukt (name : String) (fields : List (String × String))
  deriving DecidableEq

/-- Model of `rmp_serde` serialization. With `structMap := true`
(`Serializer::new(..).with_struct_map()`, used by `ReDbStore::set`)
structs are encoded as maps from field names to values; with
`structMap := false` (`rmp_serde::to_vec`, used by
`ReDbStore::set_string`) structs are encoded as arrays of the field
values. String values are encoded identically under both
configurations. -/
def rmpEncode (structMap : Bool) : MsgValue → List Nat
  | .str s => msgpackEncodeStr s
  | .strukt _ fields =>
    if structMap then
      msgpackMapHeader fields.length
        ++ (fields.map (fun f => msgpackEncodeStr f.1 ++ msgpackEncodeStr f.2)).flatten
    else
      msgpackArrayHeader fields.length
        ++ (fields.map (fun f => msgpackEncodeStr f.2)).flatten

/-! ## Filesystem backend (`fs_store.rs`) -/

/-- The one flavor of `std::io::Error` the in-memory filesystem model
can produce: the path does not exist (`ErrorKind::NotFound`), raised by
`fs::read_to_string` and `fs::remove_file` on a missing path. -/
inductive IoErr where
  | pathMissing
  deriving DecidableEq

/-- Retrieval errors of the filesystem backend (`fs_store::GetError`):
`NotFound` (declared but never constructed by `FSStore::get`), a
`serde_json` deserialization error, and a wrapped `std::io::Error`. -/
inductive FsGetError where
  | NotFound
  | Json
  | File (e : IoErr)
  deriving DecidableEq

/-- Mutation errors of the filesystem backend (`fs_store::SetError`):
a `serde_json` serialization error and a wrapped `std::io::Error`. -/
inductive FsSetError where
  | Json
  | File (e : IoErr)
  deriving DecidableEq

/-- An in-memory filesystem: an association list from absolute file
paths to file contents. -/
def Fsys := List (String × String)

/-- Model of `FSStore::format_key`: the store directory, a slash, and
the key. -/
def formatKeyFS (path key : String) : String :=
  path ++ "/" ++ key

/-- Model of `FSStore::get`: read the file at the formatted key
(`fs::read_to_string`, surfacing a missing file as a wrapped I/O
error, not as the `NotFound` variant), then deserialize with
`serde_json::from_str` into the caller's target type, modelled by the
`decode` parameter. -/
def fsGet {α : Type} (decode : String → Option α) (path : String) (fsys : Fsys)
    (key : String) : Except FsGetError α :=
  match lookupA fsys (formatKeyFS path key) with
  | none => .error (.File .pathMissing)
  | some data =>
    match decode data with
    | none => .error .Json
    | some v => .ok v

/-- Model of `FSStore::set`: serialize with `serde_json::to_string`
(modelled by the `encode` parameter, which may fail), then write the
file at the formatted key, replacing any prior contents. -/
def fsSet {α : Type} (encode : α → Option String) (path : String) (fsys : Fsys)
    (key : String) (v : α) : Fsys × Except FsSetError Unit :=
  match encode v with
  | none => (fsys, .error .Json)
  | some json => (setEntry fsys (formatKeyFS path key) json, .ok ())

/-- Model of `FSStore::set_string`: serialize the string with
`serde_json::to_string` (total on strings) and write the file at the
formatted key. -/
def fsSetString (path : String) (fsys : Fsys) (key value : String) :
    Fsys × Except FsSetError Unit :=
  (setEntry fsys (formatKeyFS path key) (jsonEncodeString value), .ok ())

/-- Model of `FSStore::remove`: `fs::remove_file` on the formatted key,
which deletes the file when present and surfaces a missing-file I/O
error otherwise. -/
def fsRemove (path : String) (fsys : Fsys) (key : String) :
    Fsys × Except FsSetError Unit :=
  match lookupA fsys (formatKeyFS path key) with
  | none => (fsys, .error (.File .pathMissing))
  | some _ => (removeEntry fsys (formatKeyFS path key), .ok ())

/-- Model of `FSStore::get_with`: the source body is the todo macro,
which panics unconditionally for every key and every decoder seed. -/
def fsGetWith {α : Type} (_seed : String → Option α) (_path : String) (_fsys : Fsys)
    (_key : String) : RRes FsGetError α :=
  .panicked

/-! ## Embedded transactional backend (`redb_store.rs`) -/

/-- Retrieval errors of the redb backend (`redb_store::GetError`).
The three engine-error variants wrap `redb` errors; of these only the
table error is producible in the model (a read transaction opening the
single table after `clear` has deleted it), since the in-memory engine
model has no storage or transaction failures. -/
inductive RGetError where
  | ReDbStorageError
  | ReDbTransactionError
  | ReDbTableError
  | NotFound
  | MessagePack
  deriving DecidableEq

/-- Mutation errors of the redb backend (`redb_store::SetError`). -/
inductive RSetError where
  | ReDbCommitError
  | ReDbStorageError
  | ReDbTransactionError
  | ReDbTableError
  | MessagePack
  | KeyConversion
  deriving DecidableEq

/-- The single named redb table: key to MessagePack byte payload. -/
def RTable := List (String × List Nat)

/-- State of the redb database: `some table` when the table exists
(as after `ReDbStore::new`, which creates it), `none` after
`clear` has deleted it. `ReadTransaction::open_table` on a deleted
table fails with a table error, while `WriteTransaction::open_table`
re-creates it (and the re-creation is discarded if the write
transaction is dropped without commit). -/
def RedbDb := Option RTable

/-- Model of `ReDbStore::set`: serialize with the `with_struct_map`
`rmp_serde` serializer (the `encode` parameter, which may fail before
any transaction is begun), then begin a write transaction, open the
table (creating it if missing), insert, and commit. -/
def redbSet {α : Type} (encode : α → Option (List Nat)) (db : RedbDb)
    (key : String) (v : α) : RedbDb × Except RSetError Unit :=
  match encode v with
  | none => (db, .error .MessagePack)
  | some bytes => (some (setEntry (db.getD []) key bytes), .ok ())

/-- Model of `ReDbStore::set_string`: serialize the string with
`rmp_serde::to_vec` (the default serializer configuration, total on
strings), then insert it under the key in a committed write
transaction. -/
def redbSetString (db : RedbDb) (key value : String) :
    RedbDb × Except RSetError Unit :=
  (some (setEntry (db.getD []) key (rmpEncode false (.str value))), .ok ())

/-- Model of `ReDbStore::get`: begin a read transaction, open the table
(failing with a table error if `clear` deleted it), look the key up
(absent keys give `NotFound`), and deserialize with `rmp_serde`
(the `decode` parameter; failure gives the MessagePack error). -/
def redbGet {α : Type} (decode : List Nat → Option α) (db : RedbDb)
    (key : String) : Except RGetError α :=
  match db with
  | none => .error .ReDbTableError
  | some table =>
    match lookupA table key with
    | none => .error .NotFound
    | some bytes =>
      match decode bytes with
      | none => .error .MessagePack
      | some v => .ok v

/-- Model of `ReDbStore::get_with`: identical to `get` except that the
deserializer is the caller-supplied seed rather than the target type's
inferred one. -/
def redbGetWith {α : Type} (seed : List Nat → Option α) (db : RedbDb)
    (key : String) : Except RGetError α :=
  match db with
  | none => .error .ReDbTableError
  | some table =>
    match lookupA table key with
    | none => .error .NotFound
    | some bytes =>
      match seed bytes with
      | none => .error .MessagePack
      | some v => .ok v

/-- Model of `ReDbStore::clear`: a single committed write transaction
that deletes the table (the table is not re-created afterwards). -/
def redbClear (db : RedbDb) : RedbDb × Except RSetError Unit :=
  let _ := db
  (none, .ok ())

/-- Model of `ReDbStore::remove`: begin a write transaction, open the
table (creating it in the transaction if missing), and call
`Table::remove`, which returns the previous value when the key was
present and `None` otherwise; `None` is turned into the
`KeyConversion` mutation error, in which case the error propagates
before `commit` and the dropped write transaction is aborted, leaving
the database unchanged. -/
def redbRemove (db : RedbDb) (key : String) : RedbDb × Except RSetError Unit :=
  let table := db.getD []
  match lookupA table key with
  | none => (db, .error .KeyConversion)
  | some _ => (some (removeEntry table key), .ok ())

/-- Model of `ReDbStore::keys`: begin a read transaction, open the
table (failing with a table error if `clear` deleted it), and collect
every key of the table. -/
def redbKeys (db : RedbDb) : Except RGetError (List String) :=
  match db with
  | none => .error .ReDbTableError
  | some table => .ok (table.map Prod.fst)

/-! ## Browser local-storage backend (`local_storage_store.rs`) -/

/-- Retrieval errors of the browser backend
(`local_storage_store::GetError`): `NotFound` and an opaque JavaScript
error from `getItem` (never produced by the model, which has no host
failures). There is no deserialization variant: the source unwraps the
`serde_json::from_str` result. -/
inductive LsGetError where
  | NotFound
  | GetItem
  deriving DecidableEq

/-- Mutation errors of the browser backend
(`local_storage_store::SetError`): an opaque JavaScript error from
`setItem` (never produced by the model) and a `serde_json`
serialization error. -/
inductive LsSetError where
  | SetItem
  | Json
  deriving DecidableEq

/-- The browser's local-storage map: prefixed keys to stored strings. -/
def LStore := List (String × String)

/-- Model of `LocalStorageStore::format_key`: the application-identity
derived namespace string immediately followed by the key. -/
def formatKeyLS (pre key : String) : String :=
  pre ++ key

/-- Model of `LocalStorageStore::get`: `Storage::get_item` on the
formatted key (a JS error would be mapped to `GetItem`; an absent key
gives `NotFound`), then `serde_json::from_str` whose result the source
unwraps, so a deserialization failure panics instead of returning an
error. -/
def localGet {α : Type} (decode : String → Option α) (pre : String) (store : LStore)
    (key : String) : RRes LsGetError α :=
  match lookupA store (formatKeyLS pre key) with
  | none => .err .NotFound
  | some json =>
    match decode json with
    | none => .panicked
    | some v => .ok v

/-- Model of `LocalStorageStore::set`: serialize with
`serde_json::to_string` (the `encode` parameter, which may fail), then
`Storage::set_item` on the formatted key. -/
def localSet {α : Type} (encode : α → Option String) (pre : String) (store : LStore)
    (key : String) (v : α) : LStore × Except LsSetError Unit :=
  match encode v with
  | none => (store, .error .Json)
  | some json => (setEntry store (formatKeyLS pre key) json, .ok ())

/-- Model of `LocalStorageStore::set_string`: serialize the string with
`serde_json::to_string` (total on strings) and store it under the
formatted key. -/
def localSetString (pre : String) (store : LStore) (key value : String) :
    LStore × Except LsSetError Unit :=
  (setEntry store (formatKeyLS pre key) (jsonEncodeString value), .ok ())

/-! ## Key-formatting injectivity -/

theorem formatKeyFS_inj {path k1 k2 : String}
    (h : formatKeyFS path k1 = formatKeyFS path k2) : k1 = k2 := by
  have hd := congrArg String.data h
  simp only [formatKeyFS, String.data_append, List.append_assoc] at hd
  exact String.ext (List.append_cancel_left (List.append_cancel_left hd))

theorem formatKeyLS_inj {pre k1 k2 : String}
    (h : formatKeyLS pre k1 = formatKeyLS pre k2) : k1 = k2 := by
  have hd := congrArg String.data h
  simp only [formatKeyLS, String.data_append] at hd
  exact String.ext (List.append_cancel_left hd)

/-! ## Claim theorems -/

/-- C1: For every backend, every key k, and every serializable value v
(modelled by encoder/decoder pairs that succeed and round-trip at v, as
the serde implementations do for serializable types), performing
set(k, v) and then get(k) with the matching target type returns Ok of a
value equal to v. -/
theorem c1_set_get_roundtrip {α : Type} (path pre : String) (fsys : Fsys)
    (db : RedbDb) (ls : LStore) (key : String) (v : α)
    (jenc : α → Option String) (jdec : String → Option α)
    (menc : α → Option (List Nat)) (mdec : List Nat → Option α)
    (js : String) (hjenc : jenc v = some js) (hjdec : jdec js = some v)
    (mb : List Nat) (hmenc : menc v = some mb) (hmdec : mdec mb = some v) :
    fsGet jdec path (fsSet jenc path fsys key v).1 key = .ok v ∧
    redbGet mdec (redbSet menc db key v).1 key = .ok v ∧
    localGet jdec pre (localSet jenc pre ls key v).1 key = .ok v := by
  refine ⟨?_, ?_, ?_⟩
  · simp [fsSet, hjenc, fsGet, lookupA_setEntry_self, hjdec]
  · simp [redbSet, hmenc, redbGet, lookupA_setEntry_self, hmdec]
  · simp [localSet, hjenc, localGet, lookupA_setEntry_self, hjdec]

/-- Witness for C1 at the concrete input of the spec scenario: key
score, value 42, starting from empty stores, with codecs that model
the serde round trip at 42. -/
theorem c1_set_get_roundtrip_witness :
    fsGet (fun t => if t = "42" then some 42 else none) "dir"
      (fsSet (fun _ : Nat => some "42") "dir" [] "score" 42).1 "score" = .ok 42 ∧
    redbGet (fun b => if b = [42] then some 42 else none)
      (redbSet (fun _ : Nat => some [42]) (some []) "score" 42).1 "score" = .ok 42 ∧
    localGet (fun t => if t = "42" then some 42 else none) "org.app"
      (localSet (fun _ : Nat => some "42") "org.app" [] "score" 42).1 "score" = .ok 42 :=
  c1_set_get_roundtrip "dir" "org.app" [] (some []) [] "score" 42
    (fun _ => some "42") (fun t => if t = "42" then some 42 else none)
    (fun _ => some [42]) (fun b => if b = [42] then some 42 else none)
    "42" rfl (by decide) [42] rfl (by decide)

/-- C2 counterexample: on the filesystem backend, get of a key never
written (empty store) returns the wrapped missing-file I/O error, not
the NotFound variant the claim requires. -/
theorem c2_counterexample :
    fsGet (fun t => some t) "dir" ([] : Fsys) "k"
      = Except.error (FsGetError.File IoErr.pathMissing) ∧
    fsGet (fun t => some t) "dir" ([] : Fsys) "k"
      ≠ Except.error FsGetError.NotFound :=
  ⟨rfl, fun h => nomatch h⟩

/-- C2 amended: the redb and browser local-storage backends return
their NotFound retrieval error for a key that was never written; the
filesystem backend instead surfaces the missing-file I/O error wrapped
in its File variant (its NotFound variant is never produced by get). -/
theorem c2_get_missing {α : Type} (jdec : String → Option α)
    (mdec : List Nat → Option α) (path pre : String) (fsys : Fsys)
    (table : RTable) (ls : LStore) (key : String)
    (hr : lookupA table key = none)
    (hl : lookupA ls (formatKeyLS pre key) = none)
    (hf : lookupA fsys (formatKeyFS path key) = none) :
    redbGet mdec (some table) key = .error .NotFound ∧
    localGet jdec pre ls key = .err .NotFound ∧
    fsGet jdec path fsys key = .error (.File .pathMissing) := by
  refine ⟨?_, ?_, ?_⟩
  · simp [redbGet, hr]
  · simp [localGet, hl]
  · simp [fsGet, hf]

/-- Witness for C2 amended: fresh stores (the redb table as created by
the constructor) and a key never written. -/
theorem c2_get_missing_witness :
    redbGet (fun b => if b = [42] then some 42 else none) (some []) "k"
      = .error .NotFound ∧
    localGet (fun t => if t = "42" then some 42 else none) "org.app" [] "k"
      = .err .NotFound ∧
    fsGet (fun t => if t = "42" then some 42 else none) "dir" [] "k"
      = .error (.File .pathMissing) :=
  c2_get_missing (fun t => if t = "42" then some 42 else none)
    (fun b => if b = [42] then some 42 else none) "dir" "org.app" [] [] [] "k"
    rfl rfl rfl

/-- C3 counterexample: on the redb backend, clear deletes the table, so
a clear followed immediately by keys returns the engine table error,
not Ok of an empty set. -/
theorem c3_counterexample :
    redbKeys (redbClear (some [("k", [5])] : RedbDb)).1
      = Except.error RGetError.ReDbTableError ∧
    redbKeys (redbClear (some [("k", [5])] : RedbDb)).1
      ≠ Except.ok [] :=
  ⟨rfl, fun h => nomatch h⟩

/-- C3 amended: clear drops the redb table, so keys immediately after
clear fails with the engine table error rather than returning Ok of an
empty set; the cleared store retains no entries, and once the next
write re-creates the table, keys returns exactly the newly written
key. -/
theorem c3_clear_keys (db : RedbDb) :
    redbKeys (redbClear db).1 = Except.error RGetError.ReDbTableError ∧
    (redbClear db).1 = none ∧
    ∀ k s, redbKeys (redbSetString (redbClear db).1 k s).1 = Except.ok [k] :=
  ⟨rfl, rfl, fun _ _ => rfl⟩

/-- C4: on the redb backend, remove of an absent key returns the
KeyConversion mutation error and, because the write transaction is
dropped before commit, leaves the database unchanged; remove of a
present key returns Ok. -/
theorem c4_redb_remove (db : RedbDb) (key : String) :
    (lookupA (db.getD []) key = none →
      redbRemove db key = (db, Except.error RSetError.KeyConversion)) ∧
    (∀ bytes, lookupA (db.getD []) key = some bytes →
      (redbRemove db key).2 = Except.ok ()) := by
  constructor
  · intro h
    simp [redbRemove, h]
  · intro bytes h
    simp [redbRemove, h]

/-- Witness for C4: a table holding key a; removing absent b errors
with KeyConversion and leaves the state unchanged, removing present a
succeeds. -/
theorem c4_redb_remove_witness :
    redbRemove (some [("a", [1])] : RedbDb) "b"
      = (some [("a", [1])], Except.error RSetError.KeyConversion) ∧
    (redbRemove (some [("a", [1])] : RedbDb) "a").2 = Except.ok () :=
  ⟨(c4_redb_remove (some [("a", [1])]) "b").1 rfl,
   (c4_redb_remove (some [("a", [1])]) "a").2 [1] rfl⟩

/-- C5: on every backend, set_string(k, s) performs exactly the same
operation as set(k, s) with the backend's serializer applied to the
string value: same new state, same result, and the stored entry is the
serialized form of the string (JSON encoding on the filesystem and
browser backends, and MessagePack encoding on the redb backend, where
the with_struct_map serializer of set and the default serializer of
set_string encode strings identically), never the raw string bytes. -/
theorem c5_set_string_pipeline (path pre : String) (fsys : Fsys) (db : RedbDb)
    (ls : LStore) (key s : String) :
    fsSetString path fsys key s
      = fsSet (fun t => some (jsonEncodeString t)) path fsys key s ∧
    redbSetString db key s
      = redbSet (fun m => some (rmpEncode true m)) db key (MsgValue.str s) ∧
    localSetString pre ls key s
      = localSet (fun t => some (jsonEncodeString t)) pre ls key s ∧
    lookupA (fsSetString path fsys key s).1 (formatKeyFS path key)
      = some (jsonEncodeString s) ∧
    lookupA ((redbSetString db key s).1.getD []) key
      = some (rmpEncode true (MsgValue.str s)) := by
  refine ⟨rfl, rfl, rfl, ?_, ?_⟩
  · exact lookupA_setEntry_self ..
  · simp only [redbSetString, Option.getD_some]
    exact lookupA_setEntry_self ..

/-- C6 counterexample: on the browser local-storage backend, a stored
entry whose contents the target type's deserializer rejects makes get
panic (the source unwraps the serde_json result) instead of returning
a categorized decode-failure error. -/
theorem c6_counterexample :
    localGet (fun _ => (none : Option Nat)) "org.app" [("org.appscore", "xx")]
      "score" = RRes.panicked :=
  rfl

/-- C6 amended: a deserialization failure during get is surfaced
immediately as the categorized decode-failure retrieval error on the
filesystem backend (Json variant) and on the redb backend (MessagePack
variant), but the browser local-storage backend panics on a
deserialization failure instead of returning an error. -/
theorem c6_decode_failure {α : Type} (jdec : String → Option α)
    (mdec : List Nat → Option α) (path pre : String) (fsys : Fsys)
    (table : RTable) (ls : LStore) (key : String)
    (data : String) (bytes : List Nat) (json : String)
    (hf : lookupA fsys (formatKeyFS path key) = some data) (hfd : jdec data = none)
    (hr : lookupA table key = some bytes) (hrd : mdec bytes = none)
    (hl : lookupA ls (formatKeyLS pre key) = some json) (hld : jdec json = none) :
    fsGet jdec path fsys key = .error .Json ∧
    redbGet mdec (some table) key = .error .MessagePack ∧
    localGet jdec pre ls key = .panicked := by
  refine ⟨?_, ?_, ?_⟩
  · simp [fsGet, hf, hfd]
  · simp [redbGet, hr, hrd]
  · simp [localGet, hl, hld]

/-- Witness for C6 amended: stores holding an entry whose contents the
target type's decoder rejects. -/
theorem c6_decode_failure_witness :
    fsGet (fun _ => (none : Option Nat)) "dir" [("dir/k", "xx")] "k"
      = .error .Json ∧
    redbGet (fun _ => (none : Option Nat)) (some [("k", [0])]) "k"
      = .error .MessagePack ∧
    localGet (fun _ => (none : Option Nat)) "org.app" [("org.appk", "xx")] "k"
      = .panicked :=
  c6_decode_failure (fun _ => none) (fun _ => none) "dir" "org.app"
    [("dir/k", "xx")] [("k", [0])] [("org.appk", "xx")] "k"
    "xx" [0] "xx" rfl rfl rfl rfl rfl rfl

/-- C7 counterexample: on the filesystem backend, remove of a present
key followed by get of the same key returns the wrapped missing-file
I/O error, not the NotFound variant the claim requires. -/
theorem c7_counterexample :
    fsGet (fun t => some t) "dir" (fsRemove "dir" [("dir/k", "v")] "k").1 "k"
      = Except.error (FsGetError.File IoErr.pathMissing) ∧
    fsGet (fun t => some t) "dir" (fsRemove "dir" [("dir/k", "v")] "k").1 "k"
      ≠ Except.error FsGetError.NotFound :=
  ⟨rfl, fun h => nomatch h⟩

/-- C7 amended: after remove of a present key, get of the same key
returns the NotFound retrieval error on the redb backend, but on the
filesystem backend it returns the wrapped missing-file I/O error
rather than the NotFound variant (the browser backend implements no
remove). -/
theorem c7_remove_get {α : Type} (jdec : String → Option α)
    (mdec : List Nat → Option α) (path : String) (fsys : Fsys)
    (table : RTable) (key : String) (data : String) (bytes : List Nat)
    (hf : lookupA fsys (formatKeyFS path key) = some data)
    (hr : lookupA table key = some bytes) :
    redbGet mdec (redbRemove (some table) key).1 key = .error .NotFound ∧
    fsGet jdec path (fsRemove path fsys key).1 key
      = .error (.File .pathMissing) := by
  constructor
  · simp [redbRemove, hr, redbGet, lookupA_removeEntry_self]
  · simp [fsRemove, hf, fsGet, lookupA_removeEntry_self]

/-- Witness for C7 amended: each store holds the key before the
remove. -/
theorem c7_remove_get_witness :
    redbGet (fun _ => (some 0 : Option Nat))
      (redbRemove (some [("k", [0])]) "k").1 "k" = .error .NotFound ∧
    fsGet (fun _ => (some 0 : Option Nat)) "dir"
      (fsRemove "dir" [("dir/k", "v")] "k").1 "k"
      = .error (.File .pathMissing) :=
  c7_remove_get (fun _ => some 0) (fun _ => some 0) "dir"
    [("dir/k", "v")] [("k", [0])] "k" "v" [0] rfl rfl

/-- C8: on every backend, after set(k, v1) followed by set(k, v2)
(both serializations succeeding, and the codec round-tripping at v2),
get(k) returns Ok v2, and when v1 and v2 differ v1 is no longer
retrievable at k: a key maps to at most one value and writing
overwrites any prior value. -/
theorem c8_overwrite {α : Type} (path pre : String) (fsys : Fsys) (db : RedbDb)
    (ls : LStore) (key : String) (v1 v2 : α)
    (jenc : α → Option String) (jdec : String → Option α)
    (menc : α → Option (List Nat)) (mdec : List Nat → Option α)
    (js1 js2 : String) (mb1 mb2 : List Nat)
    (hjenc1 : jenc v1 = some js1) (hjenc2 : jenc v2 = some js2)
    (hjdec2 : jdec js2 = some v2)
    (hmenc1 : menc v1 = some mb1) (hmenc2 : menc v2 = some mb2)
    (hmdec2 : mdec mb2 = some v2) (hne : v1 ≠ v2) :
    fsGet jdec path (fsSet jenc path (fsSet jenc path fsys key v1).1 key v2).1 key
      = .ok v2 ∧
    fsGet jdec path (fsSet jenc path (fsSet jenc path fsys key v1).1 key v2).1 key
      ≠ .ok v1 ∧
    redbGet mdec (redbSet menc (redbSet menc db key v1).1 key v2).1 key
      = .ok v2 ∧
    redbGet mdec (redbSet menc (redbSet menc db key v1).1 key v2).1 key
      ≠ .ok v1 ∧
    localGet jdec pre (localSet jenc pre (localSet jenc pre ls key v1).1 key v2).1 key
      = .ok v2 ∧
    localGet jdec pre (localSet jenc pre (localSet jenc pre ls key v1).1 key v2).1 key
      ≠ .ok v1 := by
  have hfs : fsGet jdec path
      (fsSet jenc path (fsSet jenc path fsys key v1).1 key v2).1 key = .ok v2 := by
    simp [fsSet, hjenc1, hjenc2, fsGet, lookupA_setEntry_self, hjdec2]
  have hrd : redbGet mdec
      (redbSet menc (redbSet menc db key v1).1 key v2).1 key = .ok v2 := by
    simp [redbSet, hmenc1, hmenc2, redbGet, lookupA_setEntry_self, hmdec2]
  have hls : localGet jdec pre
      (localSet jenc pre (localSet jenc pre ls key v1).1 key v2).1 key = .ok v2 := by
    simp [localSet, hjenc1, hjenc2, localGet, lookupA_setEntry_self, hjdec2]
  refine ⟨hfs, ?_, hrd, ?_, hls, ?_⟩
  · rw [hfs]
    intro h
    exact hne (Except.ok.inj h).symm
  · rw [hrd]
    intro h
    exact hne (Except.ok.inj h).symm
  · rw [hls]
    intro h
    injection h with h2
    exact hne h2.symm

/-- Witness for C8 at the spec scenario shape: the key score first
holds 42 and is then overwritten by 7, starting from empty stores,
with codecs that model serde at these two values. -/
theorem c8_overwrite_witness :
    fsGet (fun t => if t = "B" then some 7 else some 42) "dir"
      (fsSet (fun n : Nat => some (if n = 42 then "A" else "B")) "dir"
        (fsSet (fun n : Nat => some (if n = 42 then "A" else "B")) "dir" []
          "score" 42).1 "score" 7).1 "score" = .ok 7 ∧
    fsGet (fun t => if t = "B" then some 7 else some 42) "dir"
      (fsSet (fun n : Nat => some (if n = 42 then "A" else "B")) "dir"
        (fsSet (fun n : Nat => some (if n = 42 then "A" else "B")) "dir" []
          "score" 42).1 "score" 7).1 "score" ≠ .ok 42 ∧
    redbGet (fun b => if b = [2] then some 7 else some 42)
      (redbSet (fun n : Nat => some (if n = 42 then [1] else [2]))
        (redbSet (fun n : Nat => some (if n = 42 then [1] else [2]))
          (some []) "score" 42).1 "score" 7).1 "score" = .ok 7 ∧
    redbGet (fun b => if b = [2] then some 7 else some 42)
      (redbSet (fun n : Nat => some (if n = 42 then [1] else [2]))
        (redbSet (fun n : Nat => some (if n = 42 then [1] else [2]))
          (some []) "score" 42).1 "score" 7).1 "score" ≠ .ok 42 ∧
    localGet (fun t => if t = "B" then some 7 else some 42) "org.app"
      (localSet (fun n : Nat => some (if n = 42 then "A" else "B")) "org.app"
        (localSet (fun n : Nat => some (if n = 42 then "A" else "B")) "org.app" []
          "score" 42).1 "score" 7).1 "score" = .ok 7 ∧
    localGet (fun t => if t = "B" then some 7 else some 42) "org.app"
      (localSet (fun n : Nat => some (if n = 42 then "A" else "B")) "org.app"
        (localSet (fun n : Nat => some (if n = 42 then "A" else "B")) "org.app" []
          "score" 42).1 "score" 7).1 "score" ≠ .ok 42 :=
  c8_overwrite "dir" "org.app" [] (some []) [] "score" 42 7
    (fun n => some (if n = 42 then "A" else "B"))
    (fun t => if t = "B" then some 7 else some 42)
    (fun n => some (if n = 42 then [1] else [2]))
    (fun b => if b = [2] then some 7 else some 42)
    "A" "B" [1] [2] (by decide) (by decide) (by decide)
    (by decide) (by decide) (by decide) (by decide)

/-- C9: on the filesystem backend get_with is unimplemented — for
every key, decoder seed, and store state it panics unconditionally
(the source body is the todo macro) and never returns a result — while
the redb backend implements it: on a present key whose bytes the seed
decodes, it returns Ok of the decoded value. -/
theorem c9_get_with {α : Type} (seed : String → Option α) (path : String)
    (fsys : Fsys) (key : String) (mseed : List Nat → Option α) (table : RTable)
    (bytes : List Nat) (v : α)
    (hr : lookupA table key = some bytes) (hd : mseed bytes = some v) :
    fsGetWith seed path fsys key = RRes.panicked ∧
    redbGetWith mseed (some table) key = Except.ok v := by
  constructor
  · rfl
  · simp [redbGetWith, hr, hd]

/-- Witness for C9: a concrete key, seed and store; the filesystem
call panics, the redb call decodes the stored bytes. -/
theorem c9_get_with_witness :
    fsGetWith (fun _ => (some 0 : Option Nat)) "dir" [("dir/k", "v")] "k"
      = RRes.panicked ∧
    redbGetWith (fun b => if b = [7] then some 7 else none)
      (some [("k", [7])]) "k" = Except.ok 7 :=
  c9_get_with (fun _ => some 0) "dir" [("dir/k", "v")] "k"
    (fun b => if b = [7] then some 7 else none) [("k", [7])] [7] 7
    rfl (by decide)

/-- C10: frame property. For distinct keys k1 and k2 (neither
containing the path-separator character, a hypothesis the claim states
for the filesystem backend; in the model distinctness alone suffices,
since distinct keys always format to distinct paths), set(k1, v) and
remove(k1) leave the result of get(k2) unchanged on the filesystem and
redb backends, and set(k1, v) does on the browser backend (which has
no remove); the redb state is one where the table exists, as the
constructor guarantees. -/
theorem c10_frame {α β : Type} (jdec : String → Option α)
    (mdec : List Nat → Option α) (jenc : β → Option String)
    (menc : β → Option (List Nat)) (path pre : String) (fsys : Fsys)
    (table : RTable) (ls : LStore) (k1 k2 : String) (v : β)
    (hne : k1 ≠ k2) (_hs1 : ¬ '/' ∈ k1.data) (_hs2 : ¬ '/' ∈ k2.data) :
    fsGet jdec path (fsSet jenc path fsys k1 v).1 k2 = fsGet jdec path fsys k2 ∧
    fsGet jdec path (fsRemove path fsys k1).1 k2 = fsGet jdec path fsys k2 ∧
    redbGet mdec (redbSet menc (some table) k1 v).1 k2
      = redbGet mdec (some table) k2 ∧
    redbGet mdec (redbRemove (some table) k1).1 k2
      = redbGet mdec (some table) k2 ∧
    localGet jdec pre (localSet jenc pre ls k1 v).1 k2
      = localGet jdec pre ls k2 := by
  have hpathne : formatKeyFS path k2 ≠ formatKeyFS path k1 :=
    fun h => hne (formatKeyFS_inj h).symm
  have hprene : formatKeyLS pre k2 ≠ formatKeyLS pre k1 :=
    fun h => hne (formatKeyLS_inj h).symm
  have hk2ne : k2 ≠ k1 := fun h => hne h.symm
  refine ⟨?_, ?_, ?_, ?_, ?_⟩
  · match henc : jenc v with
    | none => simp [fsSet, henc]
    | some json => simp [fsSet, henc, fsGet, lookupA_setEntry_ne _ _ hpathne]
  · match hlk : lookupA fsys (formatKeyFS path k1) with
    | none => simp [fsRemove, hlk]
    | some data =>
      simp [fsRemove, hlk, fsGet, lookupA_removeEntry_ne _ hpathne]
  · match henc : menc v with
    | none => simp [redbSet, henc]
    | some bytes =>
      simp [redbSet, henc, redbGet, lookupA_setEntry_ne _ _ hk2ne]
  · match hlk : lookupA table k1 with
    | none => simp [redbRemove, hlk]
    | some bytes =>
      simp [redbRemove, hlk, redbGet, lookupA_removeEntry_ne _ hk2ne]
  · match henc : jenc v with
    | none => simp [localSet, henc]
    | some json => simp [localSet, henc, localGet, lookupA_setEntry_ne _ _ hprene]

/-- Witness for C10: two distinct slash-free keys; mutating one leaves
the other's stored value readable unchanged in concrete stores. -/
theorem c10_frame_witness :
    fsGet (fun t => some t) "dir"
      (fsSet (fun t : String => some t) "dir" [("dir/b", "y")] "a" "x").1 "b"
      = fsGet (fun t => some t) "dir" [("dir/b", "y")] "b" ∧
    fsGet (fun t => some t) "dir"
      (fsRemove "dir" [("dir/b", "y")] "a").1 "b"
      = fsGet (fun t => some t) "dir" [("dir/b", "y")] "b" ∧
    redbGet (fun b => if b = [9] then some "y" else none)
      (redbSet (fun _ : String => some [1]) (some [("b", [9])]) "a" "x").1 "b"
      = redbGet (fun b => if b = [9] then some "y" else none) (some [("b", [9])]) "b" ∧
    redbGet (fun b => if b = [9] then some "y" else none)
      (redbRemove (some [("b", [9])]) "a").1 "b"
      = redbGet (fun b => if b = [9] then some "y" else none) (some [("b", [9])]) "b" ∧
    localGet (fun t => some t) "org.app"
      (localSet (fun t : String => some t) "org.app" [("org.appb", "y")] "a" "x").1 "b"
      = localGet (fun t => some t) "org.app" [("org.appb", "y")] "b" :=
  c10_frame (fun t => some t) (fun b => if b = [9] then some "y" else none)
    (fun t => some t) (fun _ => some [1]) "dir" "org.app" [("dir/b", "y")]
    [("b", [9])] [("org.appb", "y")] "a" "b" "x"
    (by decide) (by decide) (by decide)

end BevyPkv
